import Mathlib

/-
Verification of the cart-to-order checkout flow of the shop application
(`code/web/views/site/site.py`), following its specification.

The embedding is shallow: the Flask session becomes an explicit `Session`
value, the database an explicit `Db` value, and each route handler a pure
function from those to new values plus a `Response`.  Prices are stored as
text in the source and converted with `float(...)` before arithmetic; the
embedding uses exact rationals (`ℚ`) for that arithmetic.  A Python
exception escaping a handler (an `AttributeError` from dereferencing a
`None` returned by `get_or_none`) is modelled by the handler returning
`none`: no state is mutated and no normal response is produced.
-/

set_option autoImplicit false

namespace Shop

/-- A row of the `product` table: `id` (primary key, rendered as the string
the form layer transports), `name`, and `price` (texts in the source;
the price is converted to a number before arithmetic). -/
structure Product where
  id : String
  name : String
  price : ℚ
deriving Repr, DecidableEq

/-- The catalog: the read side of the product store. -/
abbrev Catalog := List Product

/-- Embedding of `Product.get_or_none(Product.id == product_id)`: the first
product whose id matches, or `none`. -/
def getOrNone (catalog : Catalog) (pid : String) : Option Product :=
  catalog.find? (fun p => p.id == pid)

/-- One value of the `cart_products` mapping: `{"total": ..., "quantity": ...}`. -/
structure LineInfo where
  total : ℚ
  quantity : Nat
deriving Repr, DecidableEq

/-- The `cart_products` dict of the `checkout` view: a mapping from product
name to `LineInfo`, in insertion order. -/
abbrev ProductMap := List (String × LineInfo)

/-- Membership test of the Python `p.name not in cart_products` check. -/
def hasKey (m : ProductMap) (k : String) : Bool :=
  m.any (fun e => e.1 == k)

/-- Value lookup in the mapping (used only to state properties). -/
def lineFor : ProductMap → String → Option LineInfo
  | [], _ => none
  | e :: m, k => if e.1 = k then some e.2 else lineFor m k

/-- Embedding of the `else` branch of the aggregation loop body:
`cart_products[p.name]["total"] += float(p.price)` and
`cart_products[p.name]["quantity"] += 1`. -/
def incLine (m : ProductMap) (k : String) (price : ℚ) : ProductMap :=
  m.map (fun e =>
    if e.1 == k then (e.1, LineInfo.mk (e.2.total + price) (e.2.quantity + 1)) else e)

/-- One iteration of the aggregation loop body after the product has been
looked up: create the entry with quantity 1 and total the price, or
increment the existing entry. -/
def aggInsert (m : ProductMap) (p : Product) : ProductMap :=
  if hasKey m p.name then incLine m p.name p.price
  else m ++ [(p.name, LineInfo.mk p.price 1)]

/-- The aggregation loop of the `checkout` view, started from the mapping `m`.
Each cart entry is looked up with `get_or_none`; the source then reads
`p.name` unconditionally, so a failed lookup raises `AttributeError`,
modelled by the result `none`. -/
def aggregateFrom (catalog : Catalog) (m : ProductMap) : List String → Option ProductMap
  | [] => some m
  | pid :: rest =>
    match getOrNone catalog pid with
    | none => none
    | some p => aggregateFrom catalog (aggInsert m p) rest

/-- The order aggregator: the first loop of the `checkout` view, run on the
session cart with `cart_products` initially empty. -/
def aggregate (catalog : Catalog) (cart : List String) : Option ProductMap :=
  aggregateFrom catalog [] cart

/-- A display row appended to `cart_items` by the second loop of `checkout`. -/
structure Row where
  name : String
  quantity : Nat
  total_price : ℚ
deriving Repr, DecidableEq

/-- The `cart_items` list built by the second loop of `checkout`. -/
def cart_items (m : ProductMap) : List Row :=
  m.map (fun e => Row.mk e.1 e.2.quantity e.2.total)

/-- The `total_price` accumulator of the second loop of `checkout`:
starting from 0, each line total is added in turn. -/
def total_price (m : ProductMap) : ℚ :=
  m.foldl (fun acc e => acc + e.2.total) 0

/-- A persisted row of the `order` table.  The timestamp column is set from
the wall clock and carries no information the verified claims mention, so
the embedding omits it. -/
structure Order where
  id : Nat
  email : String
  products : ProductMap
deriving Repr, DecidableEq

/-- The per-session state the site blueprint touches: the cart (a list of
product-id strings appended by add-to-cart) and the optional
`recent_order_id`. -/
structure Session where
  cart : List String
  recent_order_id : Option Nat
deriving Repr, DecidableEq

/-- The database as the site blueprint sees it: the product catalog
(read-only here) and the order table. -/
structure Db where
  catalog : Catalog
  orders : List Order
deriving Repr, DecidableEq

/-- The id `AutoField` assigns to the next saved order: one more than the
largest id on file. -/
def nextOrderId (db : Db) : Nat :=
  db.orders.foldl (fun acc o => max acc o.id) 0 + 1

/-- The responses the site handlers produce, with the data each template or
JSON body is rendered from. -/
inductive Response where
  | redirectComplete
  | redirectIndex
  | renderCheckout (items : List Row) (total : ℚ)
  | renderComplete (order : Option Order)
  | json (success : Bool) (cart_items : Nat)
deriving Repr, DecidableEq

/-- Embedding of the `add_product_to_cart` view.  `request.form.get` yields
`none` when the field is missing; the Python truthiness test
`if not product_id` also takes the empty string to the failure branch.
Returns the new cart and the JSON response. -/
def add_product_to_cart (product_id : Option String) (cart : List String) :
    List String × Response :=
  match product_id with
  | none => (cart, Response.json false cart.length)
  | some pid =>
    if pid = "" then (cart, Response.json false cart.length)
    else
      let current_cart := cart ++ [pid]
      (current_cart, Response.json true current_cart.length)

/-- Embedding of the POST branch of the `checkout` view: run the aggregator
over the session cart, save a new `Order` with the submitted email and the
aggregate, store its id in `recent_order_id`, and redirect to the complete
view.  `none` models the request erroring out in the aggregation loop, in
which case neither the database nor the session is changed. -/
def checkoutPost (db : Db) (s : Session) (email : String) :
    Option (Db × Session × Response) :=
  match aggregate db.catalog s.cart with
  | none => none
  | some cart_products =>
    let oid := nextOrderId db
    let order := Order.mk oid email cart_products
    some
      (Db.mk db.catalog (db.orders ++ [order]),
        Session.mk s.cart (some oid),
        Response.redirectComplete)

/-- Embedding of the GET branch of the `checkout` view: aggregate and render,
mutating nothing. -/
def checkoutGet (db : Db) (s : Session) : Option (Db × Session × Response) :=
  match aggregate db.catalog s.cart with
  | none => none
  | some cart_products =>
    some (db, s, Response.renderCheckout (cart_items cart_products) (total_price cart_products))

/-- Embedding of the `complete` view: with no `recent_order_id` it redirects
to the index at once; otherwise it looks the order up with `get_or_none`,
pops `recent_order_id`, empties the cart, and renders whatever the lookup
returned (possibly `none`). -/
def complete (db : Db) (s : Session) : Db × Session × Response :=
  match s.recent_order_id with
  | none => (db, s, Response.redirectIndex)
  | some oid =>
    let order := db.orders.find? (fun o => o.id == oid)
    (db, Session.mk [] none, Response.renderComplete order)

/-! Helper lemmas about the aggregation mapping. -/

/-- The effect of one loop iteration on the line of the looked-up name:
a fresh entry gets quantity 1 and total the price, an existing one is
incremented. -/
def bump (l : Option LineInfo) (price : ℚ) : LineInfo :=
  match l with
  | none => LineInfo.mk price 1
  | some li => LineInfo.mk (li.total + price) (li.quantity + 1)

/-- The effect of `n` loop iterations over the same product on its line. -/
def addN (l : Option LineInfo) (n : Nat) (price : ℚ) : Option LineInfo :=
  match l with
  | none => if n = 0 then none else some (LineInfo.mk (n * price) n)
  | some li => some (LineInfo.mk (li.total + n * price) (li.quantity + n))

theorem lineFor_cons (e : String × LineInfo) (m : ProductMap) (k : String) :
    lineFor (e :: m) k = if e.1 = k then some e.2 else lineFor m k := rfl

theorem hasKey_eq_isSome (m : ProductMap) (k : String) :
    hasKey m k = (lineFor m k).isSome := by
  induction m with
  | nil => rfl
  | cons e m ih =>
    rw [lineFor_cons]
    by_cases h : e.1 = k
    · simp [hasKey, h]
    · have hb : (e.1 == k) = false := by simp [h]
      simp only [hasKey, List.any_cons, hb, Bool.false_or, if_neg h]
      exact ih

theorem lineFor_incLine_self (m : ProductMap) (k : String) (price : ℚ) :
    lineFor (incLine m k price) k =
      (lineFor m k).map (fun li => LineInfo.mk (li.total + price) (li.quantity + 1)) := by
  induction m with
  | nil => rfl
  | cons e m ih =>
    show lineFor
      ((if e.1 == k then (e.1, LineInfo.mk (e.2.total + price) (e.2.quantity + 1)) else e)
        :: incLine m k price) k = _
    by_cases h : e.1 = k
    · rw [if_pos (by simp [h]), lineFor_cons, lineFor_cons]
      simp [h]
    · rw [if_neg (by simp [h]), lineFor_cons, lineFor_cons, if_neg h, if_neg h, ih]

theorem lineFor_incLine_other (m : ProductMap) (k k2 : String) (price : ℚ)
    (h : k2 ≠ k) : lineFor (incLine m k price) k2 = lineFor m k2 := by
  induction m with
  | nil => rfl
  | cons e m ih =>
    show lineFor
      ((if e.1 == k then (e.1, LineInfo.mk (e.2.total + price) (e.2.quantity + 1)) else e)
        :: incLine m k price) k2 = _
    by_cases he : e.1 = k
    · have hek2 : ¬ e.1 = k2 := fun hc => h (hc.symm.trans he)
      rw [if_pos (by simp [he]), lineFor_cons, lineFor_cons, if_neg hek2, if_neg hek2, ih]
    · rw [if_neg (by simp [he]), lineFor_cons, lineFor_cons, ih]

theorem lineFor_append_single (m : ProductMap) (e : String × LineInfo) (k : String) :
    lineFor (m ++ [e]) k =
      match lineFor m k with
      | some li => some li
      | none => if e.1 = k then some e.2 else none := by
  induction m with
  | nil => by_cases h : e.1 = k <;> simp [lineFor, h]
  | cons f m ih =>
    rw [List.cons_append, lineFor_cons, lineFor_cons]
    by_cases h : f.1 = k <;> simp [h, ih]

theorem lineFor_aggInsert_self (m : ProductMap) (p : Product) :
    lineFor (aggInsert m p) p.name = some (bump (lineFor m p.name) p.price) := by
  unfold aggInsert
  rw [hasKey_eq_isSome]
  cases h : lineFor m p.name with
  | none => simp [h, lineFor_append_single, bump]
  | some li => simp [lineFor_incLine_self, h, bump]

theorem lineFor_aggInsert_other (m : ProductMap) (p : Product) (k : String)
    (h : k ≠ p.name) : lineFor (aggInsert m p) k = lineFor m k := by
  unfold aggInsert
  by_cases hk : hasKey m p.name
  · rw [if_pos hk]
    exact lineFor_incLine_other m p.name k p.price h
  · rw [if_neg hk, lineFor_append_single]
    cases hm : lineFor m k with
    | none => simp [Ne.symm h]
    | some li => simp

theorem addN_bump (l : Option LineInfo) (n : Nat) (price : ℚ) :
    addN (some (bump l price)) n price = addN l (n + 1) price := by
  cases l with
  | none =>
    have h1 : price + (n : ℚ) * price = ((n + 1 : Nat) : ℚ) * price := by push_cast; ring
    have h2 : 1 + n = n + 1 := Nat.add_comm 1 n
    simp [addN, bump, h1, h2]
  | some li =>
    have h1 : li.total + price + (n : ℚ) * price = li.total + ((n + 1 : Nat) : ℚ) * price := by
      push_cast; ring
    have h2 : li.quantity + 1 + n = li.quantity + (n + 1) := by omega
    simp [addN, bump, h1, h2]

theorem getOrNone_mem {catalog : Catalog} {pid : String} {p : Product}
    (h : getOrNone catalog pid = some p) : p ∈ catalog :=
  List.mem_of_find?_eq_some h

theorem getOrNone_id {catalog : Catalog} {pid : String} {p : Product}
    (h : getOrNone catalog pid = some p) : p.id = pid := by
  have := List.find?_some h
  simpa using this

/-- When every cart entry is found in the catalog the aggregation loop
finishes normally, whatever mapping it starts from. -/
theorem aggregateFrom_isSome (catalog : Catalog) (cart : List String)
    (hmem : ∀ pid ∈ cart, (getOrNone catalog pid).isSome) (m : ProductMap) :
    ∃ m2, aggregateFrom catalog m cart = some m2 := by
  induction cart generalizing m with
  | nil => exact ⟨m, rfl⟩
  | cons x rest ih =>
    have hx : (getOrNone catalog x).isSome := hmem x (List.mem_cons_self x rest)
    cases hg : getOrNone catalog x with
    | none => rw [hg] at hx; exact absurd hx (by simp)
    | some p =>
      have ⟨m2, hm2⟩ := ih (fun q hq => hmem q (List.mem_cons_of_mem x hq)) (aggInsert m p)
      exact ⟨m2, by rw [aggregateFrom, hg]; exact hm2⟩

/-- Main loop invariant: when catalog names determine catalog ids, the line
of product `p` (looked up from id `pid`) evolves across the whole loop by
exactly `cart.count pid` bumps of `p.price`. -/
theorem addN_zero (l : Option LineInfo) (price : ℚ) : addN l 0 price = l := by
  cases l with
  | none => simp [addN]
  | some li => simp [addN]

theorem aggregateFrom_lineFor (catalog : Catalog) {pid : String} {p : Product}
    (hp : getOrNone catalog pid = some p)
    (hinj : ∀ q ∈ catalog, ∀ r ∈ catalog, q.name = r.name → q.id = r.id)
    (cart : List String) :
    ∀ m m2 : ProductMap,
      (∀ x ∈ cart, (getOrNone catalog x).isSome) →
      aggregateFrom catalog m cart = some m2 →
      lineFor m2 p.name = addN (lineFor m p.name) (cart.count pid) p.price := by
  induction cart with
  | nil =>
    intro m m2 _ hagg
    simp only [aggregateFrom] at hagg
    cases hagg
    rw [List.count_nil, addN_zero]
  | cons x rest ih =>
    intro m m2 hmem hagg
    have hx : (getOrNone catalog x).isSome := hmem x (List.mem_cons_self x rest)
    cases hg : getOrNone catalog x with
    | none => rw [hg] at hx; exact absurd hx (by simp)
    | some q =>
      rw [aggregateFrom, hg] at hagg
      have hrest := ih (aggInsert m q) m2 (fun y hy => hmem y (List.mem_cons_of_mem x hy)) hagg
      by_cases hxp : x = pid
      · subst hxp
        have hqp : q = p := by rw [hg] at hp; exact Option.some.inj hp
        subst hqp
        rw [hrest, lineFor_aggInsert_self, addN_bump, List.count_cons_self]
      · have hqid : q.id = x := getOrNone_id hg
        have hpid : p.id = pid := getOrNone_id hp
        have hname : p.name ≠ q.name := by
          intro hn
          have hid : p.id = q.id := hinj p (getOrNone_mem hp) q (getOrNone_mem hg) hn
          apply hxp
          rw [← hqid, ← hid, hpid]
        rw [hrest, lineFor_aggInsert_other m q p.name hname,
          List.count_cons_of_ne (Ne.symm hxp)]

/-- The fold computing `total_price` equals the initial value plus the sum
of the line totals. -/
theorem total_price_foldl (m : ProductMap) :
    ∀ a : ℚ, m.foldl (fun acc e => acc + e.2.total) a =
      a + (m.map (fun e => e.2.total)).sum := by
  induction m with
  | nil => intro a; simp
  | cons e m ih =>
    intro a
    rw [List.foldl_cons, ih, List.map_cons, List.sum_cons]
    ring

/-- The grand total is the sum of the totals of the display rows. -/
theorem total_price_eq_sum (m : ProductMap) :
    total_price m = ((cart_items m).map Row.total_price).sum := by
  rw [total_price, total_price_foldl]
  simp only [cart_items, List.map_map, zero_add]
  rfl

/-- A successful lookup names an entry of the mapping. -/
theorem lineFor_mem {m : ProductMap} {k : String} {li : LineInfo}
    (h : lineFor m k = some li) : (k, li) ∈ m := by
  induction m with
  | nil => cases h
  | cons e m ih =>
    rw [lineFor_cons] at h
    by_cases he : e.1 = k
    · rw [if_pos he] at h
      cases h
      rw [← he]
      exact List.mem_cons_self e m
    · rw [if_neg he] at h
      exact List.mem_cons_of_mem e (ih h)

/-! Concrete fixtures: the catalog and cart of the repository's own tests
(`create_test_product("Floss", "1.50")`, `create_test_product("Toothbrush", "2.99")`,
cart `[p.id, p.id, p2.id]`). -/

/-- Test fixture: the Floss product, price 1.50. -/
def floss : Product := Product.mk "1" "Floss" (3 / 2)

/-- Test fixture: the Toothbrush product, price 2.99. -/
def toothbrush : Product := Product.mk "2" "Toothbrush" (299 / 100)

/-- The scenario catalog of the spec and of the repository's tests. -/
def scenarioCatalog : Catalog := [floss, toothbrush]

/-- The scenario cart: Floss, Floss, Toothbrush. -/
def scenarioCart : List String := ["1", "1", "2"]

/-! Claim theorems. -/

/-- Claim C1, counterexample to the statement as given: for the catalog
holding only Floss (id "1") and the cart `["1", "2"]`, the aggregation
dereferences the failed lookup of id "2" and dies, so it produces no line at
all — in particular none for id "1", which is present in the catalog and
occurs once in the cart. -/
theorem aggregator_produces_nothing_on_absent_id :
    aggregate [floss] ["1", "2"] = none ∧
    ¬ ∃ m, aggregate [floss] ["1", "2"] = some m := by
  constructor
  · rfl
  · rintro ⟨m, hm⟩
    rw [show aggregate [floss] ["1", "2"] = none from rfl] at hm
    cases hm

/-- Claim C1, amended: when every id in the cart is present in the catalog
and distinct catalog products have distinct names, the aggregator succeeds
and, for each product id occurring in the cart, yields a line keyed by that
product's name whose quantity is the number of occurrences of the id in the
cart and whose total is quantity times the product's price read at
aggregation time; the grand total is the sum of all line totals. -/
theorem checkout_aggregator_lines (catalog : Catalog) (cart : List String)
    (hmem : ∀ pid ∈ cart, (getOrNone catalog pid).isSome)
    (hinj : ∀ q ∈ catalog, ∀ r ∈ catalog, q.name = r.name → q.id = r.id) :
    ∃ m, aggregate catalog cart = some m ∧
      (∀ pid ∈ cart, ∀ p, getOrNone catalog pid = some p →
        lineFor m p.name =
          some (LineInfo.mk ((cart.count pid : ℚ) * p.price) (cart.count pid)) ∧
        Row.mk p.name (cart.count pid) ((cart.count pid : ℚ) * p.price) ∈ cart_items m) ∧
      total_price m = ((cart_items m).map Row.total_price).sum := by
  obtain ⟨m, hm⟩ := aggregateFrom_isSome catalog cart hmem []
  refine ⟨m, hm, ?_, total_price_eq_sum m⟩
  intro pid hpid p hp
  have hline := aggregateFrom_lineFor catalog hp hinj cart [] m hmem hm
  have hc : cart.count pid ≠ 0 := fun h0 => (List.count_eq_zero.mp h0) hpid
  have hsome : lineFor m p.name =
      some (LineInfo.mk ((cart.count pid : ℚ) * p.price) (cart.count pid)) := by
    rw [hline]
    simp [lineFor, addN, hc]
  refine ⟨hsome, ?_⟩
  have hmem2 := lineFor_mem hsome
  exact List.mem_map.mpr ⟨_, hmem2, rfl⟩

/-- Claim C1 witness: the amended theorem applied to the scenario catalog
and cart. -/
theorem checkout_aggregator_lines_witness :
    ∃ m, aggregate scenarioCatalog scenarioCart = some m ∧
      (∀ pid ∈ scenarioCart, ∀ p, getOrNone scenarioCatalog pid = some p →
        lineFor m p.name =
          some (LineInfo.mk ((scenarioCart.count pid : ℚ) * p.price) (scenarioCart.count pid)) ∧
        Row.mk p.name (scenarioCart.count pid) ((scenarioCart.count pid : ℚ) * p.price)
          ∈ cart_items m) ∧
      total_price m = ((cart_items m).map Row.total_price).sum :=
  checkout_aggregator_lines scenarioCatalog scenarioCart (by decide) (by decide)

/-- Claim C2, counterexample to the statement as given: with catalog
holding only Floss (id "1") and cart `["2", "1"]`, the entry "2" is absent
from the catalog; far from being skipped, it makes the loop dereference
`None` and the request dies, so the remaining entry "1" is not aggregated
either. -/
theorem aggregator_not_silent_on_absent_id :
    getOrNone [floss] "2" = none ∧
    getOrNone [floss] "1" = some floss ∧
    aggregate [floss] ["2", "1"] = none := by
  exact ⟨rfl, rfl, rfl⟩

/-- Generalisation behind the C2 amendment: once some cart entry has no
catalog product, the whole aggregation comes back with nothing, whatever
mapping it starts from. -/
theorem aggregateFrom_none_of_absent (catalog : Catalog) (pid : String)
    (habs : getOrNone catalog pid = none) :
    ∀ cart : List String, ∀ m : ProductMap,
      pid ∈ cart → aggregateFrom catalog m cart = none := by
  intro cart
  induction cart with
  | nil => intro m h; cases h
  | cons x rest ih =>
    intro m hmem
    cases hg : getOrNone catalog x with
    | none => rw [aggregateFrom, hg]
    | some p =>
      have hx : pid ≠ x := by
        intro he
        rw [← he, habs] at hg
        cases hg
      have hrest : pid ∈ rest := by
        cases List.mem_cons.mp hmem with
        | inl h => exact absurd h hx
        | inr h => exact h
      rw [aggregateFrom, hg]
      exact ih (aggInsert m p) hrest

/-- Claim C2, amended: a cart entry whose id is absent from the catalog is
not skipped; the aggregation loop dereferences the failed lookup and the
whole aggregation fails (no mapping is produced, no entry of the cart is
aggregated).  The cart itself is untouched: the aggregator never writes to
it. -/
theorem aggregator_fails_on_absent_id (catalog : Catalog) (cart : List String)
    (pid : String) (hpid : pid ∈ cart) (habs : getOrNone catalog pid = none) :
    aggregate catalog cart = none :=
  aggregateFrom_none_of_absent catalog pid habs cart [] hpid

/-- Claim C2 witness: the amended theorem at the concrete failing cart. -/
theorem aggregator_fails_on_absent_id_witness :
    aggregate [floss] ["2", "1"] = none :=
  aggregator_fails_on_absent_id [floss] ["2", "1"] "2" (by decide) (by decide)

/-- Claim C3, counterexample to the grand total as given: for the scenario
catalog and cart the aggregator's grand total is 5.99, and 5.99 is not the
claimed 4.99. -/
theorem scenario_grand_total_ne_499 :
    (aggregate scenarioCatalog scenarioCart).map total_price = some (599 / 100) ∧
    (599 : ℚ) / 100 ≠ 499 / 100 := by
  constructor
  · simp [aggregate, aggregateFrom, getOrNone, aggInsert, hasKey, incLine, total_price,
      scenarioCatalog, scenarioCart, floss, toothbrush, List.find?, List.any]
    norm_num
  · norm_num

/-- Claim C3, amended: the scenario aggregate is Floss with total 3.00
and quantity 2 and Toothbrush with total 2.99 and quantity 1 — and the grand
total is 5.99 (the sum of 3.00 and 2.99), not 4.99. -/
theorem scenario_aggregate_and_grand_total :
    aggregate scenarioCatalog scenarioCart =
      some [("Floss", LineInfo.mk 3 2), ("Toothbrush", LineInfo.mk (299 / 100) 1)] ∧
    (aggregate scenarioCatalog scenarioCart).map total_price = some (599 / 100) := by
  constructor
  · simp [aggregate, aggregateFrom, getOrNone, aggInsert, hasKey, incLine,
      scenarioCatalog, scenarioCart, floss, toothbrush, List.find?, List.any]
  · simp [aggregate, aggregateFrom, getOrNone, aggInsert, hasKey, incLine, total_price,
      scenarioCatalog, scenarioCart, floss, toothbrush, List.find?, List.any]
    norm_num

/-- Claim C4: a POST to /checkout leaves the session cart unchanged — the
handler writes only `recent_order_id` — and responds with the redirect to
the complete view; the cart is set to empty only when the complete view is
afterwards rendered.  A submission whose redirect is never followed
therefore leaves the cart exactly as it was (and a submission that dies in
the aggregation loop mutates nothing at all, there being no `some` result). -/
theorem checkout_post_preserves_cart (db : Db) (s : Session) (email : String)
    (res : Db × Session × Response)
    (h : checkoutPost db s email = some res) :
    res.2.1.cart = s.cart ∧ res.2.2 = Response.redirectComplete ∧
      (complete res.1 res.2.1).2.1.cart = [] := by
  unfold checkoutPost at h
  cases hagg : aggregate db.catalog s.cart with
  | none => rw [hagg] at h; cases h
  | some m =>
    rw [hagg] at h
    injection h with h2
    subst h2
    exact ⟨rfl, rfl, rfl⟩

/-- Claim C4 witness: the theorem at a concrete checkout submission. -/
theorem checkout_post_preserves_cart_witness :
    (Db.mk ([] : Catalog) [Order.mk 1 "a@a.com" []], Session.mk ([] : List String) (some 1),
        Response.redirectComplete).2.1.cart = (Session.mk ([] : List String) none).cart ∧
    (Db.mk ([] : Catalog) [Order.mk 1 "a@a.com" []], Session.mk ([] : List String) (some 1),
        Response.redirectComplete).2.2 = Response.redirectComplete ∧
    (complete (Db.mk ([] : Catalog) [Order.mk 1 "a@a.com" []])
        (Session.mk ([] : List String) (some 1))).2.1.cart = [] :=
  checkout_post_preserves_cart (Db.mk [] []) (Session.mk [] none) "a@a.com"
    (Db.mk [] [Order.mk 1 "a@a.com" []], Session.mk [] (some 1), Response.redirectComplete) rfl

/-- Claim C5, counterexample to the statement as given: a POST whose cart
holds the identifier "9", absent from the catalog, dies in the aggregation
loop: no order is persisted, no `recent_order_id` is stored, no redirect is
returned. -/
theorem checkout_post_no_order_on_absent_id :
    checkoutPost (Db.mk [floss] []) (Session.mk ["9"] none) "a@a.com" = none := rfl

/-- Claim C5, amended: every POST to /checkout whose session cart only holds
identifiers present in the catalog persists exactly one new order — with the
submitted email and the aggregate of the cart at submission time as its
products — stores the new order id in `recent_order_id`, and redirects to
the complete view. -/
theorem checkout_post_persists_order (db : Db) (s : Session) (email : String)
    (hmem : ∀ pid ∈ s.cart, (getOrNone db.catalog pid).isSome) :
    ∃ m, aggregate db.catalog s.cart = some m ∧
      checkoutPost db s email =
        some (Db.mk db.catalog (db.orders ++ [Order.mk (nextOrderId db) email m]),
          Session.mk s.cart (some (nextOrderId db)),
          Response.redirectComplete) := by
  obtain ⟨m, hm⟩ := aggregateFrom_isSome db.catalog s.cart hmem []
  have hm2 : aggregate db.catalog s.cart = some m := hm
  refine ⟨m, hm2, ?_⟩
  unfold checkoutPost
  rw [hm2]

/-- Claim C5 witness: the amended theorem at the scenario POST. -/
theorem checkout_post_persists_order_witness :
    ∃ m, aggregate scenarioCatalog scenarioCart = some m ∧
      checkoutPost (Db.mk scenarioCatalog []) (Session.mk scenarioCart none) "a@a.com" =
        some (Db.mk scenarioCatalog ([] ++ [Order.mk 1 "a@a.com" m]),
          Session.mk scenarioCart (some 1),
          Response.redirectComplete) :=
  checkout_post_persists_order (Db.mk scenarioCatalog []) (Session.mk scenarioCart none)
    "a@a.com" (by decide)

/-- Claim C6, counterexample to the statement as given: the supplied
identifier may be the empty string; Python truthiness sends it down the
failure branch, so nothing is appended and success is reported false. -/
theorem add_product_empty_string_not_appended :
    add_product_to_cart (some "") ["1"] = (["1"], Response.json false 1) := rfl

/-- Claim C6, amended: for every non-empty supplied identifier — whether or
not it exists in the catalog — exactly that identifier is appended at the
end of the cart, the length grows by one, and the response reports success
with the new length; an empty-string identifier is treated like a missing
one. -/
theorem add_product_appends_nonempty (pid : String) (hpid : pid ≠ "")
    (cart : List String) :
    add_product_to_cart (some pid) cart =
      (cart ++ [pid], Response.json true (cart.length + 1)) := by
  simp [add_product_to_cart, hpid]

/-- Claim C6 witness: the amended theorem at a concrete append. -/
theorem add_product_appends_nonempty_witness :
    add_product_to_cart (some "9") ["1"] =
      (["1"] ++ ["9"], Response.json true (2 : Nat)) :=
  add_product_appends_nonempty "9" (by decide) ["1"]

/-- Claim C7: with no `product_id` in the request, add-to-cart leaves the
cart unchanged and reports success false together with the unchanged
length, rather than failing. -/
theorem add_product_missing_id_unchanged (cart : List String) :
    add_product_to_cart none cart = (cart, Response.json false cart.length) := rfl

/-- Boundary events of a checkout submission, used to state the ordering of
persistence and notification. -/
inductive CheckoutEvent where
  | persisted (oid : Nat)
  | notified (email : String)
deriving Repr, DecidableEq

/-- Recogniser of a notifier dispatch among the checkout events. -/
def isNotify : CheckoutEvent → Bool
  | CheckoutEvent.notified _ => true
  | CheckoutEvent.persisted _ => false

/-- Modelled from the spec: the notifier invocation of the checkout POST
handler.  The repository defines the celery task `send_confirmation_email`
(`tasks/send_email.py`) and a test helper mocking its `delay` attribute
(`tests/helpers.py`), but the code calling it is not among the files at
hand; per the spec the handler persists the order and then triggers the
notifier once, fire-and-forget, before redirecting.  This definition
extends `checkoutPost` with that boundary-event trace, in order. -/
def checkoutPostNotify (db : Db) (s : Session) (email : String) :
    Option (Db × Session × Response × List CheckoutEvent) :=
  match aggregate db.catalog s.cart with
  | none => none
  | some cart_products =>
    let oid := nextOrderId db
    some (Db.mk db.catalog (db.orders ++ [Order.mk oid email cart_products]),
      Session.mk s.cart (some oid),
      Response.redirectComplete,
      [CheckoutEvent.persisted oid, CheckoutEvent.notified email])

/-- Claim C8: on every checkout submission that completes, the notifier is
dispatched exactly once, and its dispatch comes strictly after the order
has been persisted, never before. -/
theorem notifier_once_after_persistence (db : Db) (s : Session) (email : String)
    (res : Db × Session × Response × List CheckoutEvent)
    (h : checkoutPostNotify db s email = some res) :
    res.2.2.2.countP isNotify = 1 ∧
    ∃ i j : Nat, i < j ∧
      res.2.2.2[i]? = some (CheckoutEvent.persisted (nextOrderId db)) ∧
      res.2.2.2[j]? = some (CheckoutEvent.notified email) := by
  unfold checkoutPostNotify at h
  cases hagg : aggregate db.catalog s.cart with
  | none => rw [hagg] at h; cases h
  | some m =>
    rw [hagg] at h
    injection h with h2
    subst h2
    exact ⟨rfl, 0, 1, Nat.zero_lt_one, rfl, rfl⟩

/-- Claim C8 witness: the theorem at a concrete submission. -/
theorem notifier_once_after_persistence_witness :
    ([CheckoutEvent.persisted 1, CheckoutEvent.notified "a@a.com"] :
        List CheckoutEvent).countP isNotify = 1 ∧
    ∃ i j : Nat, i < j ∧
      ([CheckoutEvent.persisted 1, CheckoutEvent.notified "a@a.com"] :
        List CheckoutEvent)[i]? = some (CheckoutEvent.persisted 1) ∧
      ([CheckoutEvent.persisted 1, CheckoutEvent.notified "a@a.com"] :
        List CheckoutEvent)[j]? = some (CheckoutEvent.notified "a@a.com") :=
  notifier_once_after_persistence (Db.mk [] []) (Session.mk [] none) "a@a.com"
    (Db.mk [] [Order.mk 1 "a@a.com" []], Session.mk [] (some 1), Response.redirectComplete,
      [CheckoutEvent.persisted 1, CheckoutEvent.notified "a@a.com"]) rfl

/-- Claim C9: a GET of /complete with no `recent_order_id` in the session
redirects to the catalog home and leaves the whole session state — the cart
and the absence of `recent_order_id` — and the database unchanged; no error
page is produced. -/
theorem complete_without_recent_redirects (db : Db) (s : Session)
    (h : s.recent_order_id = none) :
    complete db s = (db, s, Response.redirectIndex) := by
  obtain ⟨cart, ro⟩ := s
  cases ro with
  | none => rfl
  | some oid => cases h

/-- Claim C9 witness: the theorem at a concrete session. -/
theorem complete_without_recent_redirects_witness :
    complete (Db.mk [] []) (Session.mk ["1"] none) =
      (Db.mk [] [], Session.mk ["1"] none, Response.redirectIndex) :=
  complete_without_recent_redirects (Db.mk [] []) (Session.mk ["1"] none) rfl

/-- Claim C10: when `recent_order_id` is present but matches no persisted
order, the complete view still removes `recent_order_id`, still empties the
cart, and itself returns the rendered page with an absent order — not a
NotFound response; the session mutations do not depend on the lookup
succeeding. -/
theorem complete_stale_order_clears_session (db : Db) (s : Session) (oid : Nat)
    (h : s.recent_order_id = some oid)
    (habs : db.orders.find? (fun o => o.id == oid) = none) :
    complete db s = (db, Session.mk [] none, Response.renderComplete none) := by
  obtain ⟨cart, ro⟩ := s
  cases ro with
  | none => cases h
  | some oid2 =>
    injection h with h2
    rw [show complete db (Session.mk cart (some oid2)) =
      (db, Session.mk [] none,
        Response.renderComplete (db.orders.find? (fun o => o.id == oid2))) from rfl]
    rw [h2, habs]

/-- Claim C10 witness: the theorem at a concrete stale session. -/
theorem complete_stale_order_clears_session_witness :
    complete (Db.mk [] []) (Session.mk ["1"] (some 5)) =
      (Db.mk [] [], Session.mk [] none, Response.renderComplete none) :=
  complete_stale_order_clears_session (Db.mk [] []) (Session.mk ["1"] (some 5)) 5 rfl rfl

end Shop
